import Mathlib

/-!
Shallow embedding of the LOG8415E MapReduce engine (TP2), covering:
  * the partitioner service (`old/mapreduce-local/partitioner_service.py`),
    including a full executable MD5 so that `hashlib.md5(key).hexdigest()`
    converted to an integer is modelled faithfully;
  * the reducer service (`old/mapreduce-local/reducer_service.py`);
  * the orchestrator (`mapreduce/orchestrator_service.py`): map-phase
    chunking, job submission, job lifecycle and the pipeline's aggregate
    and persist steps.

Python strings are modelled as Lean `String`s; machine-independent Python
integers as `Nat` (MD5 words carry an explicit `% 2^32`).
-/

set_option maxRecDepth 100000

namespace MapReduceTP

/-! ## Python string primitives -/

/-- The whitespace characters stripped by Python's `str.strip()` (ASCII part,
which is all the repository's data uses). -/
def pySpace (c : Char) : Bool :=
  c = ' ' || c = '\t' || c = '\n' || c = '\r' || c = '\x0b' || c = '\x0c'

/-- Python `s.strip()`: remove leading and trailing whitespace. -/
def pyStrip (s : String) : String :=
  String.mk (((s.data.dropWhile pySpace).reverse.dropWhile pySpace).reverse)

/-- Python truthiness test `if not line.strip()`: the line is blank
(empty or whitespace only). -/
def isBlank (s : String) : Bool :=
  s.data.all pySpace

/-- Python `line.split(c, 1)` when it yields two parts: the text before the
first occurrence of `c` and the rest after it; `none` when `c` is absent
(`len(parts) != 2`). -/
def breakAtChar (c : Char) : List Char → Option (List Char × List Char)
  | [] => none
  | x :: xs =>
    if x = c then some ([], xs)
    else match breakAtChar c xs with
      | some (a, b) => some (x :: a, b)
      | none => none

/-- Python `line.split('\t', 1)` as a key/value pair, `none` on a line with
no TAB. -/
def splitKV (s : String) : Option (String × String) :=
  match breakAtChar '\t' s.data with
  | some (a, b) => some (String.mk a, String.mk b)
  | none => none

/-- Python `s.split(c)[0]`: the text before the first occurrence of `c`
(the whole string when `c` is absent). -/
def beforeChar (c : Char) (s : String) : String :=
  String.mk (s.data.takeWhile (fun x => x ≠ c))

/-- UTF-8 encoding of one scalar value, as Python `str.encode()` produces. -/
def utf8Char (c : Char) : List Nat :=
  let n := c.toNat
  if n < 0x80 then [n]
  else if n < 0x800 then [0xC0 + n / 64, 0x80 + n % 64]
  else if n < 0x10000 then
    [0xE0 + n / 4096, 0x80 + (n / 64) % 64, 0x80 + n % 64]
  else
    [0xF0 + n / 262144, 0x80 + (n / 4096) % 64, 0x80 + (n / 64) % 64,
      0x80 + n % 64]

/-- Python `s.encode()`: the UTF-8 bytes of a string. -/
def utf8Bytes (s : String) : List Nat :=
  (s.data.map utf8Char).flatten

/-! ## MD5 (RFC 1321), as used by `hashlib.md5(key.encode()).hexdigest()` -/

/-- The 64 MD5 sine-derived constants `K[i] = floor(2^32 * |sin(i+1)|)`. -/
def md5K : List Nat :=
  [0xd76aa478, 0xe8c7b756, 0x242070db, 0xc1bdceee,
   0xf57c0faf, 0x4787c62a, 0xa8304613, 0xfd469501,
   0x698098d8, 0x8b44f7af, 0xffff5bb1, 0x895cd7be,
   0x6b901122, 0xfd987193, 0xa679438e, 0x49b40821,
   0xf61e2562, 0xc040b340, 0x265e5a51, 0xe9b6c7aa,
   0xd62f105d, 0x02441453, 0xd8a1e681, 0xe7d3fbc8,
   0x21e1cde6, 0xc33707d6, 0xf4d50d87, 0x455a14ed,
   0xa9e3e905, 0xfcefa3f8, 0x676f02d9, 0x8d2a4c8a,
   0xfffa3942, 0x8771f681, 0x6d9d6122, 0xfde5380c,
   0xa4beea44, 0x4bdecfa9, 0xf6bb4b60, 0xbebfbc70,
   0x289b7ec6, 0xeaa127fa, 0xd4ef3085, 0x04881d05,
   0xd9d4d039, 0xe6db99e5, 0x1fa27cf8, 0xc4ac5665,
   0xf4292244, 0x432aff97, 0xab9423a7, 0xfc93a039,
   0x655b59c3, 0x8f0ccc92, 0xffeff47d, 0x85845dd1,
   0x6fa87e4f, 0xfe2ce6e0, 0xa3014314, 0x4e0811a1,
   0xf7537e82, 0xbd3af235, 0x2ad7d2bb, 0xeb86d391]

/-- The 64 per-round left-rotation amounts. -/
def md5S : List Nat :=
  [7, 12, 17, 22, 7, 12, 17, 22, 7, 12, 17, 22, 7, 12, 17, 22,
   5, 9, 14, 20, 5, 9, 14, 20, 5, 9, 14, 20, 5, 9, 14, 20,
   4, 11, 16, 23, 4, 11, 16, 23, 4, 11, 16, 23, 4, 11, 16, 23,
   6, 10, 15, 21, 6, 10, 15, 21, 6, 10, 15, 21, 6, 10, 15, 21]

/-- 32-bit left rotation. -/
def rotl32 (x s : Nat) : Nat :=
  ((x <<< s) % 2 ^ 32) ||| (x >>> (32 - s))

/-- Bitwise complement within 32 bits. -/
def not32 (x : Nat) : Nat := x ^^^ 0xffffffff

/-- The round function and message-word index of MD5 round `i`. -/
def md5FG (i b c d : Nat) : Nat × Nat :=
  if i < 16 then ((b &&& c) ||| (not32 b &&& d), i)
  else if i < 32 then ((d &&& b) ||| (not32 d &&& c), (5 * i + 1) % 16)
  else if i < 48 then (b ^^^ c ^^^ d, (3 * i + 5) % 16)
  else (c ^^^ (b ||| not32 d), (7 * i) % 16)

/-- One of the 64 MD5 rounds on state `(a, b, c, d)` over message words `m`. -/
def md5Round (m : List Nat) (st : Nat × Nat × Nat × Nat) (i : Nat) :
    Nat × Nat × Nat × Nat :=
  let (a, b, c, d) := st
  let (f, g) := md5FG i b c d
  let f2 := (f + a + md5K.getD i 0 + m.getD g 0) % 2 ^ 32
  (d, (b + rotl32 f2 (md5S.getD i 0)) % 2 ^ 32, b, c)

/-- Little-endian byte decomposition (`n` bytes). -/
def toLEBytes (n : Nat) (x : Nat) : List Nat :=
  (List.range n).map (fun i => (x >>> (8 * i)) % 256)

/-- Little-endian recomposition of a byte list into a number. -/
def fromLE (bs : List Nat) : Nat :=
  bs.foldr (fun b acc => b + 256 * acc) 0

/-- Big-endian recomposition, as `int(hexdigest, 16)` reads the digest. -/
def fromBE (bs : List Nat) : Nat :=
  bs.foldl (fun acc b => acc * 256 + b) 0

/-- The 16 little-endian 32-bit words of one 64-byte block. -/
def md5Words (block : List Nat) : List Nat :=
  (List.range 16).map (fun j => fromLE ((block.drop (4 * j)).take 4))

/-- Process one 64-byte block: run the 64 rounds and add the result into the
running state. -/
def md5Block (h : Nat × Nat × Nat × Nat) (block : List Nat) :
    Nat × Nat × Nat × Nat :=
  let m := md5Words block
  let (a, b, c, d) := (List.range 64).foldl (md5Round m) h
  ((h.1 + a) % 2 ^ 32, (h.2.1 + b) % 2 ^ 32, (h.2.2.1 + c) % 2 ^ 32,
    (h.2.2.2 + d) % 2 ^ 32)

/-- Process `n` consecutive 64-byte blocks of `l`. -/
def md5Blocks : Nat → Nat × Nat × Nat × Nat → List Nat → Nat × Nat × Nat × Nat
  | 0, h, _ => h
  | n + 1, h, l => md5Blocks n (md5Block h (l.take 64)) (l.drop 64)

/-- MD5 padding: append `0x80`, zero bytes up to 56 mod 64, then the bit
length as 8 little-endian bytes. -/
def md5Pad (msg : List Nat) : List Nat :=
  let len := msg.length
  msg ++ [0x80] ++ List.replicate ((120 - (len + 1) % 64) % 64) 0
    ++ toLEBytes 8 ((8 * len) % 2 ^ 64)

/-- `int(hashlib.md5(bytes).hexdigest(), 16)`: the big-endian reading of the
16 digest bytes (the digest itself lays each state word out little-endian). -/
def md5Int (msg : List Nat) : Nat :=
  let padded := md5Pad msg
  let (a, b, c, d) := md5Blocks (padded.length / 64)
    (0x67452301, 0xefcdab89, 0x98badcfe, 0x10325476) padded
  fromBE (toLEBytes 4 a ++ toLEBytes 4 b ++ toLEBytes 4 c ++ toLEBytes 4 d)

/-- RFC 1321 test vector: MD5 of the empty message. -/
theorem md5Int_empty : md5Int [] = 0xd41d8cd98f00b204e9800998ecf8427e := by
  decide

/-- RFC 1321 test vector: MD5 of `"a"`. -/
theorem md5Int_a :
    md5Int (utf8Bytes "a") = 0x0cc175b9c0f1b6a831c399e269772661 := by
  decide

/-- RFC 1321 test vector: MD5 of `"abc"`. -/
theorem md5Int_abc :
    md5Int (utf8Bytes "abc") = 0x900150983cd24fb0d6963f7d28e17f72 := by
  decide

/-! ## Partitioner service (`old/mapreduce-local/partitioner_service.py`) -/

/-- The key the partitioner hashes:
`line.split('\t')[0].split(',')[0]` — the text before the first TAB,
then truncated before the first comma. -/
def partitionKey (line : String) : String :=
  beforeChar ',' (beforeChar '\t' line)

/-- `partition_line(line, num_reducers)`: hash of the key modulo the number
of reducers.  The bare `except` can only fire for `num_reducers = 0`
(ZeroDivisionError), in which case it returns 0; string splitting and MD5
never raise. -/
def partition_line (line : String) (num_reducers : Nat) : Nat :=
  if num_reducers = 0 then 0
  else md5Int (utf8Bytes (partitionKey line)) % num_reducers

/-- `partitions[i].append(r)`: append `r` to the `i`-th bucket. -/
def appendAt : List (List String) → Nat → String → List (List String)
  | [], _, _ => []
  | b :: bs, 0, r => (b ++ [r]) :: bs
  | b :: bs, i + 1, r => b :: appendAt bs i r

/-- The loop of `partition_data`: start from `num_partitions` empty buckets;
each non-blank record is appended to the bucket `partition_line` picks
(blank records are skipped by `if record.strip()`). -/
def partitionBuckets (num_partitions : Nat) (records : List String) :
    List (List String) :=
  records.foldl
    (fun bs r => if isBlank r then bs
      else appendAt bs (partition_line r num_partitions) r)
    (List.replicate num_partitions [])

/-- `partition_data(request)`: the buckets `{0: [...], ...}` and the counts
`{i: len(partitions[i])}`. -/
def partition_data (records : List String) (num_partitions : Nat) :
    List (List String) × List Nat :=
  let bs := partitionBuckets num_partitions records
  (bs, bs.map List.length)

/-! ## Reducer service (`old/mapreduce-local/reducer_service.py`) -/

/-- Python truthiness of the `current_key` variable: `None` and the empty
string are falsy. -/
def pyTruthy : Option String → Bool
  | none => false
  | some s => s ≠ ""

/-- `result = reduce_function(k, values); if result is not None:
results.extend(result)` — flush one group into the accumulated results.
A plugin's `reduce_function` is modelled as returning `none` for Python
`None` and `some outputLines` otherwise. -/
def appendFlush (f : String → List String → Option (List String))
    (k : String) (values results : List String) : List String :=
  match f k values with
  | some out => results ++ out
  | none => results

/-- The loop of `reduce_data`, with state `(current_key, values, results)`.
Blank lines and lines with no TAB are skipped; a flush happens before a
record whose key differs from a *truthy* current key; the final group is
flushed only when the current key is truthy. -/
def reduceGo (f : String → List String → Option (List String)) :
    List String → Option String → List String → List String → List String
  | [], cur, values, results =>
    match cur with
    | some k => if k ≠ "" then appendFlush f k values results else results
    | none => results
  | line :: rest, cur, values, results =>
    if isBlank line then reduceGo f rest cur values results
    else match splitKV line with
      | none => reduceGo f rest cur values results
      | some (key, value) =>
        if pyTruthy cur ∧ cur ≠ some key then
          match cur with
          | some k =>
            reduceGo f rest (some key) [value] (appendFlush f k values results)
          | none => reduceGo f rest (some key) [value] results
        else
          reduceGo f rest (some key) (values ++ [value]) results

/-- `reduce_data(request)`: the reduced lines and `total_records`, their
count. -/
def reduce_data (f : String → List String → Option (List String))
    (records : List String) : List String × Nat :=
  let results := reduceGo f records none [] []
  (results, results.length)

/-- A record the reducer keeps: non-blank and containing a TAB. -/
def keepRecord (r : String) : Bool :=
  !isBlank r && (splitKV r).isSome

/-! ### Run-length grouping as the spec describes it (for claim C1) -/

/-- Modelled from the spec: run-length grouping of parsed records — while
consecutive pairs share the pending key the values accumulate; a key change
closes the pending group. -/
def groupRunsAux (k : String) (vs : List String) :
    List (String × String) → List (String × List String)
  | [] => [(k, vs)]
  | (k2, v) :: rest =>
    if k2 = k then groupRunsAux k (vs ++ [v]) rest
    else (k, vs) :: groupRunsAux k2 [v] rest

/-- Modelled from the spec: the run-length groups of a parsed record list. -/
def groupRuns : List (String × String) → List (String × List String)
  | [] => []
  | (k, v) :: rest => groupRunsAux k [v] rest

/-- Modelled from the spec: the reducer output the spec describes — every
record parsed as `(key, value)`, grouped by run-length, each group flushed
through `reduce`, the non-absent outputs concatenated in flush order. -/
def specReduceOutput (f : String → List String → Option (List String))
    (records : List String) : List String :=
  ((groupRuns (records.filterMap splitKV)).map
    (fun g => (f g.1 g.2).getD [])).flatten

/-! ## Orchestrator service (`mapreduce/orchestrator_service.py`) -/

/-- `chunk_size = max(1, len(input_lines) // num_mappers)`. -/
def chunkSize (totalLines num_mappers : Nat) : Nat :=
  max 1 (totalLines / num_mappers)

/-- The chunk handed to mapper `i`:
`input_lines[start:end]` with `start = i * chunk_size` and
`end = start + chunk_size` for all but the last mapper, the whole tail for
the last one. -/
def chunkFor (lines : List String) (num_mappers i : Nat) : List String :=
  let cs := chunkSize lines.length num_mappers
  if i < num_mappers - 1 then (lines.drop (i * cs)).take cs
  else lines.drop (i * cs)

/-- The map-phase split: `for i, mapper_url in enumerate(mapper_urls)`
paired with `input_lines[start:end]`. -/
def mapperChunks (lines : List String) (mapper_urls : List String) :
    List (String × List String) :=
  mapper_urls.enum.map (fun p => (p.2, chunkFor lines mapper_urls.length p.1))

/-- Job status strings used by the orchestrator. -/
inductive Status where
  | pending
  | running
  | completed
  | failed
deriving DecidableEq, Repr

/-- The optional fields of the `JobRequest` pydantic model. -/
structure JobRequest where
  algorithm : Option String := none
  input_file : Option String := none
  num_reducers : Option Nat := none
  mapper_urls : Option (List String) := none
  reducer_urls : Option (List String) := none
  partitioner_url : Option String := none
deriving DecidableEq, Repr

/-- Python falsiness of an optional string field (`if not req["input_file"]`):
`None` and the empty string are falsy. -/
def optFalsy : Option String → Bool
  | none => true
  | some s => s = ""

/-- A job record as kept in the in-memory `jobs` dict. -/
structure JobRecord where
  job_id : String
  status : Status
  progress : String
  result_preview : Option (List String) := none
  partition_counts : Option (List Nat) := none
  output_file : Option String := none
  error : Option String := none
deriving DecidableEq, Repr

/-- The immediate `JobResponse` returned by `POST /jobs`. -/
structure JobResponse where
  job_id : String
  status : Status
  message : String
deriving DecidableEq, Repr

/-- `create_job`: validate that `input_file` is provided (HTTP 400
otherwise, the registry untouched and nothing enqueued); otherwise register
a `pending` record under the allocated id, enqueue the background task with
the merged request, and answer at once with the id.  The timestamp-derived
id is a parameter; the registry is an association list. -/
def create_job (jobs : List (String × JobRecord)) (job_id : String)
    (req : JobRequest) :
    Except Nat
      (List (String × JobRecord) × JobResponse × (String × JobRequest)) :=
  if optFalsy req.input_file then .error 400
  else
    let record : JobRecord :=
      { job_id := job_id, status := .pending, progress := "Job created" }
    let response : JobResponse :=
      { job_id := job_id, status := .pending, message := "Job queued" }
    .ok ((job_id, record) :: jobs, response, (job_id, req))

/-- The loaded plugin module, for the aggregate step:
`aggregate_function`, when defined, may itself raise. -/
structure Plugin where
  aggregate_function : Option (List String → Except String (List String))

/-- Step 5 of the pipeline:
`try: algorithm = load_algorithm(...); if hasattr(algorithm,
'aggregate_function'): final = aggregate_function(all_reduced) else:
final = all_reduced; except: final = all_reduced`.  Any failure — loading
the module or running the aggregate — is swallowed and the concatenated
reduced data is used unchanged. -/
def aggregateStep (loaded : Except String Plugin) (all_reduced : List String) :
    List String :=
  match loaded with
  | .error _ => all_reduced
  | .ok plugin =>
    match plugin.aggregate_function with
    | none => all_reduced
    | some f =>
      match f all_reduced with
      | .ok out => out
      | .error _ => all_reduced

/-- The outcomes of everything outside the orchestrator's own process:
the dataset file, the HTTP responses of the worker services, and the
dynamic plugin load for the aggregate step. -/
structure PipelineEnv where
  file_exists : Bool
  is_file : Bool
  raw_lines : List String
  mapper_responses : List (Except String (List String))
  partitioner_response : Except String (List (List String) × List Nat)
  reducer_responses : List (Except String (List String))
  loaded_plugin : Except String Plugin

/-- Collect a list of worker responses in order: the first non-200 response
raises (aborting the job); otherwise the payload lists are concatenated. -/
def collectResponses :
    List (Except String (List String)) → Except String (List String)
  | [] => .ok []
  | .error e :: _ => .error e
  | .ok d :: rest => (collectResponses rest).map (fun tail => d ++ tail)

/-- Pipeline steps 1–4 (`run_mapreduce_job` up to the reduce phase): ingest
and validate the dataset, split and dispatch to mappers, partition, and
dispatch each bucket `partitions.get(str(i), [])` to reducer `i`.  Returns
the concatenated reduced data and the partition counts, or the text of the
exception that marks the job failed. -/
def preAggregate (req : JobRequest) (env : PipelineEnv) :
    Except String (List String × List Nat) := do
  if !env.file_exists then throw "Input file not found"
  if !env.is_file then throw "Input path is not a file"
  let input_lines := (env.raw_lines.map pyStrip).filter (fun l => l ≠ "")
  if input_lines = [] then
    throw "Input file is empty or contains only blank lines"
  let mapper_urls ← match req.mapper_urls with
    | none => throw "No mapper_urls provided in job payload"
    | some [] => throw "No mapper_urls provided in job payload"
    | some urls => pure urls
  let _chunks := mapperChunks input_lines mapper_urls
  let _all_mapped ← collectResponses env.mapper_responses
  let (partitions, partition_counts) ← env.partitioner_response
  let num_reducers ← match req.num_reducers with
    | none => throw "TypeError: range() argument must be an int, not NoneType"
    | some n => pure n
  let reducer_urls := (req.reducer_urls).getD []
  if reducer_urls.length < num_reducers then throw "IndexError: list index out of range"
  let _buckets := (List.range num_reducers).map (fun i => partitions.getD i [])
  let all_reduced ← collectResponses env.reducer_responses
  return (all_reduced, partition_counts)

/-- The file text written in step 6: each final line followed by `'\n'`. -/
def outputText (final_results : List String) : String :=
  String.join (final_results.map (fun l => l ++ "\n"))

/-- What one run of `run_mapreduce_job` does to its job record: the record
after the run, the successive status values written to it (first `running`,
then exactly one terminal status), and the content of the output artifact
when one was written. -/
def runJob (req : JobRequest) (env : PipelineEnv) (rec : JobRecord) :
    JobRecord × List Status × Option String :=
  match preAggregate req env with
  | .ok (all_reduced, partition_counts) =>
    let final_results := aggregateStep env.loaded_plugin all_reduced
    let done : JobRecord :=
      { rec with
          status := .completed
          result_preview := some (final_results.take 10)
          output_file := some ("output_" ++ rec.job_id ++ ".txt")
          partition_counts := some partition_counts }
    (done, [.running, .completed], some (outputText final_results))
  | .error e =>
    let done : JobRecord := { rec with status := .failed, error := some e }
    (done, [.running, .failed], none)

/-- The full status history of one job: `pending` at creation, then the
writes of its single background run. -/
def statusTrace (req : JobRequest) (env : PipelineEnv) (rec : JobRecord) :
    List Status :=
  Status.pending :: (runJob req env rec).2.1

/-! ## Theorems about the partitioner -/

/-- Bucket indices are always in range for a positive partition count. -/
theorem partition_line_lt (r : String) (N : Nat) (hN : 1 ≤ N) :
    partition_line r N < N := by
  unfold partition_line
  rw [if_neg (by omega)]
  exact Nat.mod_lt _ hN

/-- C2, counterexample.  The record `"a"` contains no TAB, yet the code
sends it to bucket `md5("a") mod 2 = 1`, not to bucket 0; and the record
`"a,b\tv"` is bucketed by `md5("a") mod 2 = 1`, not by
`md5("a,b") mod 2 = 0` as hashing the full text before the first TAB
would give. -/
theorem c2_counterexample :
    (splitKV "a").isSome = false ∧ partition_line "a" 2 = 1 ∧
    partition_line "a,b\tv" 2 ≠
      md5Int (utf8Bytes (beforeChar '\t' "a,b\tv")) % 2 := by
  refine ⟨by decide, by decide, by decide⟩

/-- C2, amended: the hashed key is the record text before the first TAB
*truncated at the first comma*; a record with no TAB is hashed on its whole
text (before any comma) rather than being forced to bucket 0.  The bucket
is `md5(key) mod N`, always in range, and any two records whose text
before the first TAB coincides land in the same bucket, across repeated
calls. -/
theorem c2_partition_line_key_hash (r r' : String) (N : Nat) (hN : 1 ≤ N)
    (hkey : beforeChar '\t' r' = beforeChar '\t' r) :
    partition_line r N = md5Int (utf8Bytes (partitionKey r)) % N ∧
    partition_line r N < N ∧
    partition_line r' N = partition_line r N := by
  refine ⟨?_, partition_line_lt r N hN, ?_⟩
  · unfold partition_line
    rw [if_neg (by omega)]
  · unfold partition_line partitionKey
    rw [hkey]

/-- C2, witness at `r = "x\ty"`, `r' = "x\tz"`, `N = 3`. -/
theorem c2_witness :
    partition_line "x\ty" 3 = md5Int (utf8Bytes (partitionKey "x\ty")) % 3 ∧
    partition_line "x\ty" 3 < 3 ∧
    partition_line "x\tz" 3 = partition_line "x\ty" 3 :=
  c2_partition_line_key_hash "x\ty" "x\tz" 3 (by decide) (by decide)

/-- `appendAt` preserves the number of buckets. -/
theorem appendAt_length (bs : List (List String)) (i : Nat) (r : String) :
    (appendAt bs i r).length = bs.length := by
  induction bs generalizing i with
  | nil => rfl
  | cons b bs ih =>
    cases i with
    | zero => rfl
    | succ j => simpa [appendAt] using ih j

/-- Appending a record into bucket `i` adds it, up to permutation, at the
end of the flattened buckets. -/
theorem appendAt_flatten_perm (bs : List (List String)) (i : Nat)
    (r : String) (hi : i < bs.length) :
    List.Perm (appendAt bs i r).flatten (bs.flatten ++ [r]) := by
  induction bs generalizing i with
  | nil => simp at hi
  | cons b bs ih =>
    cases i with
    | zero =>
      simp only [appendAt, List.flatten_cons, List.append_assoc]
      exact List.Perm.append_left b List.perm_append_comm
    | succ j =>
      simp only [appendAt, List.flatten_cons]
      have h := ih j (by simpa using hi)
      have h2 := List.Perm.append_left b h
      simpa [List.append_assoc] using h2

/-- The partition loop, run from any bucket vector of the right width,
keeps every non-blank record (up to permutation) and drops the blank
ones. -/
theorem partitionFold_perm (N : Nat) (hN : 1 ≤ N) (records : List String) :
    ∀ bs : List (List String), bs.length = N →
    List.Perm
      (records.foldl
        (fun bs r => if isBlank r then bs
          else appendAt bs (partition_line r N) r) bs).flatten
      (bs.flatten ++ records.filter (fun r => !isBlank r)) := by
  induction records with
  | nil => intro bs _; simp
  | cons r rest ih =>
    intro bs hbs
    cases hb : isBlank r with
    | true => simpa [List.foldl_cons, hb] using ih bs hbs
    | false =>
      have hlen : (appendAt bs (partition_line r N) r).length = N :=
        (appendAt_length bs _ r).trans hbs
      have h1 := ih (appendAt bs (partition_line r N) r) hlen
      have h2 : List.Perm (appendAt bs (partition_line r N) r).flatten
          (bs.flatten ++ [r]) :=
        appendAt_flatten_perm bs _ r (hbs ▸ partition_line_lt r N hN)
      have h3 := h1.trans (List.Perm.append_right _ h2)
      simp only [List.foldl_cons, hb, if_false, Bool.false_eq_true,
        List.filter_cons, Bool.not_false, if_true]
      simpa [List.append_assoc] using h3

/-- C3, counterexample.  A blank input record is dropped: with input
`[" "]` and one partition, the single bucket is empty, so the record
appears in no bucket at all. -/
theorem c3_counterexample :
    (partition_data [" "] 1).1.flatten.count " " = 0 ∧
    ([" "] : List String).count " " = 1 := by
  refine ⟨by decide, by decide⟩

/-- C3, amended: the response has exactly the bucket indices `0..N-1`
(empty buckets included), every *non-blank* input record appears in
exactly one bucket (blank records are silently dropped), and
`partitionCounts[i]` is the length of bucket `i`. -/
theorem c3_partition_complete (records : List String) (N : Nat)
    (hN : 1 ≤ N) :
    (partition_data records N).1.length = N ∧
    List.Perm (partition_data records N).1.flatten
      (records.filter (fun r => !isBlank r)) ∧
    (partition_data records N).2 = (partition_data records N).1.map
      List.length := by
  refine ⟨?_, ?_, rfl⟩
  · unfold partition_data partitionBuckets
    have : ∀ rs : List String, ∀ bs : List (List String),
        (rs.foldl (fun bs r => if isBlank r then bs
          else appendAt bs (partition_line r N) r) bs).length = bs.length := by
      intro rs
      induction rs with
      | nil => intro bs; rfl
      | cons r rest ih =>
        intro bs
        by_cases hb : isBlank r <;> simp [hb, ih, appendAt_length]
    simpa using this records (List.replicate N [])
  · unfold partition_data partitionBuckets
    have := partitionFold_perm N hN records (List.replicate N []) (by simp)
    simpa using this

/-- C3, witness at `records = ["a\t1", "b\t2", "", "a\t3"]`, `N = 2`. -/
theorem c3_witness :
    (partition_data ["a\t1", "b\t2", "", "a\t3"] 2).1.length = 2 ∧
    List.Perm (partition_data ["a\t1", "b\t2", "", "a\t3"] 2).1.flatten
      ((["a\t1", "b\t2", "", "a\t3"] : List String).filter
        (fun r => !isBlank r)) ∧
    (partition_data ["a\t1", "b\t2", "", "a\t3"] 2).2 =
      (partition_data ["a\t1", "b\t2", "", "a\t3"] 2).1.map List.length :=
  c3_partition_complete ["a\t1", "b\t2", "", "a\t3"] 2 (by decide)

/-! ## Theorems about the orchestrator's map-phase split -/

/-- The chunks, without the mapper URLs they are paired with. -/
theorem mapperChunks_snd (lines urls : List String) :
    (mapperChunks lines urls).map Prod.snd
      = (List.range urls.length).map (chunkFor lines urls.length) := by
  unfold mapperChunks
  rw [List.map_map]
  have : (Prod.snd ∘ fun p : Nat × String =>
      (p.2, chunkFor lines urls.length p.1))
      = (fun p : Nat × String => chunkFor lines urls.length p.1) := rfl
  rw [this]
  have h2 : (fun p : Nat × String => chunkFor lines urls.length p.1)
      = (chunkFor lines urls.length) ∘ Prod.fst := rfl
  rw [h2, ← List.map_map, List.enum_map_fst]

/-- Indexing a mapped range. -/
theorem rangeMap_getD {β : Type} (m i : Nat) (g : Nat → β) (d : β)
    (hi : i < m) :
    (((List.range m).map g).getD i d) = g i := by
  rw [List.getD_eq_getElem?_getD, List.getElem?_map, List.getElem?_range hi]
  rfl

/-- C4, counterexample.  With 1 input line and 2 mappers the claimed chunk
size is `floor(1/2) = 0`, but the code uses `max(1, ...) = 1`: the first
mapper receives the single line and the last mapper receives nothing. -/
theorem c4_counterexample :
    (["a"] : List String) ≠ [] ∧ 1 ≤ 2 ∧
    (((mapperChunks ["a"] ["u1", "u2"]).map Prod.snd).getD 0 []).length
      ≠ (["a"] : List String).length / 2 := by
  refine ⟨by decide, by decide, by decide⟩

/-- C4, amended: *when the line count is at least the mapper count* the
chunk size is `floor(totalLines / mapperCount)`, each of the first
`mapperCount - 1` mappers receives exactly that many lines, and the last
mapper receives the remainder `totalLines - (mapperCount-1) * chunkSize`.
(In general the code takes `chunk_size = max(1, totalLines // mapperCount)`
and the slices clamp, so with fewer lines than mappers the first
`totalLines` mappers get one line each and the rest get empty chunks.) -/
theorem c4_chunk_sizes (lines urls : List String) (h1 : 1 ≤ urls.length)
    (h2 : urls.length ≤ lines.length) :
    (∀ i, i < urls.length - 1 →
      (((mapperChunks lines urls).map Prod.snd).getD i []).length
        = lines.length / urls.length) ∧
    (((mapperChunks lines urls).map Prod.snd).getD (urls.length - 1) []).length
      = lines.length - (urls.length - 1) * (lines.length / urls.length) := by
  set m := urls.length with hm
  set T := lines.length with hT
  have hdiv : 1 ≤ T / m := (Nat.one_le_div_iff (by omega)).2 h2
  have hcs : chunkSize T m = T / m := by
    unfold chunkSize
    omega
  constructor
  · intro i hi
    rw [mapperChunks_snd, rangeMap_getD _ _ _ _ (by omega)]
    unfold chunkFor
    rw [← hT, hcs, if_pos hi]
    rw [List.length_take, List.length_drop]
    have hmul : (i + 1) * (T / m) ≤ T := by
      calc (i + 1) * (T / m) ≤ m * (T / m) :=
            Nat.mul_le_mul_right _ (by omega)
        _ = (T / m) * m := Nat.mul_comm _ _
        _ ≤ T := Nat.div_mul_le_self T m
    have : i * (T / m) + T / m ≤ T := by
      have : (i + 1) * (T / m) = i * (T / m) + T / m := by ring
      omega
    omega
  · rw [mapperChunks_snd, rangeMap_getD _ _ _ _ (by omega)]
    unfold chunkFor
    rw [← hT, hcs, if_neg (by omega)]
    rw [List.length_drop]

/-- C4, witness at 5 lines, 2 mappers: first chunk 2 lines, last 3. -/
theorem c4_witness :
    ((((mapperChunks ["a", "b", "c", "d", "e"] ["u1", "u2"]).map
        Prod.snd).getD 0 []).length = 2) ∧
    ((((mapperChunks ["a", "b", "c", "d", "e"] ["u1", "u2"]).map
        Prod.snd).getD 1 []).length = 3) := by
  have h := c4_chunk_sizes ["a", "b", "c", "d", "e"] ["u1", "u2"]
    (by decide) (by decide)
  exact ⟨h.1 0 (by decide), h.2⟩

/-- Consecutive `take`/`drop` slices of width `cs` followed by the tail
reassemble the whole list. -/
theorem slices_cover {α : Type} (l : List α) (cs : Nat) :
    ∀ k, (((List.range k).map
        (fun i => (l.drop (i * cs)).take cs)).flatten) ++ l.drop (k * cs)
      = l := by
  intro k
  induction k with
  | zero => simp
  | succ n ih =>
    rw [List.range_succ, List.map_append, List.flatten_append]
    simp only [List.map_cons, List.map_nil, List.flatten_cons,
      List.flatten_nil, List.append_nil]
    have hdrop : l.drop ((n + 1) * cs) = (l.drop (n * cs)).drop cs := by
      rw [List.drop_drop]
      congr 1
      ring
    rw [List.append_assoc, hdrop, List.take_append_drop]
    exact ih

/-- C5: the map-phase chunks are consecutive slices of the input — their
concatenation in chunk order is exactly the original non-blank line list,
so no line is lost or duplicated, order is preserved, and the chunks are
pairwise disjoint by position. -/
theorem c5_chunks_partition (lines urls : List String) (_hne : lines ≠ [])
    (h1 : 1 ≤ urls.length) :
    ((mapperChunks lines urls).map Prod.snd).flatten = lines := by
  rw [mapperChunks_snd]
  obtain ⟨n, hn⟩ : ∃ n, urls.length = n + 1 := ⟨urls.length - 1, by omega⟩
  rw [hn, List.range_succ, List.map_append]
  set cs := chunkSize lines.length (n + 1) with hcs
  have hmap : (List.range n).map (chunkFor lines (n + 1))
      = (List.range n).map (fun i => (lines.drop (i * cs)).take cs) := by
    apply List.map_congr_left
    intro i hi
    have hi2 : i < (n + 1) - 1 := by simpa using List.mem_range.1 hi
    unfold chunkFor
    rw [← hcs, if_pos hi2]
  have hlast : chunkFor lines (n + 1) n = lines.drop (n * cs) := by
    unfold chunkFor
    rw [← hcs, if_neg (by omega)]
  rw [hmap, List.flatten_append]
  simp only [List.map_cons, List.map_nil, List.flatten_cons,
    List.flatten_nil, List.append_nil, hlast]
  exact slices_cover lines cs n

/-- C5, witness at 5 lines, 2 mappers. -/
theorem c5_witness :
    ((mapperChunks ["a", "b", "c", "d", "e"] ["u1", "u2"]).map
      Prod.snd).flatten = ["a", "b", "c", "d", "e"] :=
  c5_chunks_partition ["a", "b", "c", "d", "e"] ["u1", "u2"]
    (by decide) (by decide)

/-! ## Theorems about the reducer -/

/-- `appendFlush` just appends the (possibly absent) reduce output. -/
theorem appendFlush_eq (f : String → List String → Option (List String))
    (k : String) (values results : List String) :
    appendFlush f k values results = results ++ (f k values).getD [] := by
  unfold appendFlush
  cases f k values <;> simp

/-- A record that is non-blank, parses as `(key, value)` and has a
non-empty key. -/
def goodRecord (r : String) : Bool :=
  !isBlank r &&
    match splitKV r with
    | some (k, _) => k ≠ ""
    | none => false

/-- Over records with non-empty keys, the reducer loop started on a
pending group `(k, vs)` produces the accumulated results followed by the
flushes of the run-length groups. -/
theorem reduceGo_spec (f : String → List String → Option (List String)) :
    ∀ records : List String, ∀ k : String, ∀ vs acc : List String,
    k ≠ "" → (∀ r ∈ records, goodRecord r = true) →
    reduceGo f records (some k) vs acc
      = acc ++ ((groupRunsAux k vs (records.filterMap splitKV)).map
          (fun g => (f g.1 g.2).getD [])).flatten := by
  intro records
  induction records with
  | nil =>
    intro k vs acc hk _
    simp only [reduceGo, List.filterMap_nil, groupRunsAux, List.map_cons,
      List.map_nil, List.flatten_cons, List.flatten_nil, List.append_nil]
    rw [if_pos hk, appendFlush_eq]
  | cons r rest ih =>
    intro k vs acc hk hgood
    have hr := hgood r (by simp)
    have hrest : ∀ x ∈ rest, goodRecord x = true := by
      intro x hx
      exact hgood x (by simp [hx])
    unfold goodRecord at hr
    cases hblank : isBlank r with
    | true => simp [hblank] at hr
    | false =>
      cases hsplit : splitKV r with
      | none => simp [hblank, hsplit] at hr
      | some kv =>
        obtain ⟨key, value⟩ := kv
        have hkey : key ≠ "" := by
          simp [hblank, hsplit] at hr
          simpa using hr
        have hfm : List.filterMap splitKV (r :: rest)
            = (key, value) :: List.filterMap splitKV rest := by
          simp [List.filterMap_cons, hsplit]
        rw [hfm]
        simp only [reduceGo, hblank, hsplit]
        by_cases hkk : key = k
        · subst hkk
          have hcond : ¬(pyTruthy (some key) = true ∧ some key ≠ some key) := by
            simp
          rw [if_neg hcond]
          rw [ih key (vs ++ [value]) acc hkey hrest]
          simp [groupRunsAux]
        · have hcond : pyTruthy (some k) = true ∧ some k ≠ some key := by
            constructor
            · simpa [pyTruthy] using hk
            · simpa using fun h => hkk h.symm
          rw [if_pos hcond]
          rw [ih key [value] (appendFlush f k vs acc) hkey hrest]
          simp only [groupRunsAux, if_neg hkk]
          rw [appendFlush_eq]
          simp [List.append_assoc]

/-- C1, counterexample.  The run-length contract fails on a record whose
key is the empty string: Python's `if current_key:` test treats `""` as
falsy, so the group of the record `"\ta"` is never flushed — the reducer
returns no output where the spec's run-length grouping flushes
`reduce("", ["a"])`. -/
theorem c1_counterexample :
    goodRecord "\ta" = false ∧ isBlank "\ta" = false ∧
    (splitKV "\ta").isSome = true ∧
    reduce_data (fun k vs => some (k :: vs)) ["\ta"]
      ≠ (specReduceOutput (fun k vs => some (k :: vs)) ["\ta"],
        (specReduceOutput (fun k vs => some (k :: vs)) ["\ta"]).length) := by
  refine ⟨by decide, by decide, by decide, by decide⟩

/-- C1, amended: *for records whose keys are non-empty*, the reducer
groups by run-length over the order received exactly as described —
values of consecutive records with the same key accumulate, a key change
flushes the pending group through `reduce`, the final group is flushed at
end of input, the output is the concatenation of all non-absent reduce
outputs in flush order, and `totalRecords` is its length.  (A group whose
key is the empty string is never flushed on a key change — its values
leak into the next group — and is dropped entirely at end of input.) -/
theorem c1_reducer_runlength (f : String → List String → Option (List String))
    (records : List String) (h : ∀ r ∈ records, goodRecord r = true) :
    reduce_data f records
      = (specReduceOutput f records, (specReduceOutput f records).length) := by
  unfold reduce_data specReduceOutput
  cases records with
  | nil => rfl
  | cons r rest =>
    have hr := h r (by simp)
    have hrest : ∀ x ∈ rest, goodRecord x = true := by
      intro x hx
      exact h x (by simp [hx])
    unfold goodRecord at hr
    cases hblank : isBlank r with
    | true => simp [hblank] at hr
    | false =>
      cases hsplit : splitKV r with
      | none => simp [hblank, hsplit] at hr
      | some kv =>
        obtain ⟨key, value⟩ := kv
        have hkey : key ≠ "" := by
          simp [hblank, hsplit] at hr
          simpa using hr
        simp only [reduceGo, hblank, hsplit]
        have hcond : ¬(pyTruthy (none : Option String) = true ∧
            (none : Option String) ≠ some key) := by
          simp [pyTruthy]
        rw [if_neg hcond]
        have hfm : List.filterMap splitKV (r :: rest)
            = (key, value) :: List.filterMap splitKV rest := by
          simp [List.filterMap_cons, hsplit]
        rw [hfm]
        rw [reduceGo_spec f rest key ([] ++ [value]) [] hkey hrest]
        simp [groupRuns]

/-- C1, witness: three well-formed records, two runs. -/
theorem c1_witness :
    reduce_data (fun k vs => some (k :: vs)) ["a\t1", "a\t2", "b\t3"]
      = (specReduceOutput (fun k vs => some (k :: vs))
            ["a\t1", "a\t2", "b\t3"],
        (specReduceOutput (fun k vs => some (k :: vs))
            ["a\t1", "a\t2", "b\t3"]).length) :=
  c1_reducer_runlength (fun k vs => some (k :: vs))
    ["a\t1", "a\t2", "b\t3"] (by decide)

/-- The reducer loop ignores exactly the records `keepRecord` rejects:
running it on a list or on its `keepRecord`-filtered form is the same. -/
theorem reduceGo_filter (f : String → List String → Option (List String)) :
    ∀ records : List String, ∀ cur : Option String, ∀ vs acc : List String,
    reduceGo f records cur vs acc
      = reduceGo f (records.filter keepRecord) cur vs acc := by
  intro records
  induction records with
  | nil => intro cur vs acc; rfl
  | cons r rest ih =>
    intro cur vs acc
    cases hblank : isBlank r with
    | true =>
      have hkeep : keepRecord r = false := by
        unfold keepRecord
        simp [hblank]
      rw [List.filter_cons_of_neg (by simp [hkeep])]
      simp only [reduceGo, hblank]
      exact ih cur vs acc
    | false =>
      cases hsplit : splitKV r with
      | none =>
        have hkeep : keepRecord r = false := by
          unfold keepRecord
          simp [hblank, hsplit]
        rw [List.filter_cons_of_neg (by simp [hkeep])]
        simp only [reduceGo, hblank, hsplit]
        exact ih cur vs acc
      | some kv =>
        obtain ⟨key, value⟩ := kv
        have hkeep : keepRecord r = true := by
          unfold keepRecord
          simp [hblank, hsplit]
        rw [List.filter_cons_of_pos (by simp [hkeep])]
        simp only [reduceGo, hblank, hsplit]
        by_cases hcond : pyTruthy cur = true ∧ cur ≠ some key
        · rw [if_pos hcond, if_pos hcond]
          cases cur with
          | none => simp [pyTruthy] at hcond
          | some k => exact ih (some key) [value] (appendFlush f k vs acc)
        · rw [if_neg hcond, if_neg hcond]
          exact ih (some key) (vs ++ [value]) acc

/-- C10: the reducer silently skips every blank record and every record
with no TAB — they contribute no values and raise no error, and the
response on any record list equals the response on the same list with
those records removed. -/
theorem c10_reducer_skips_malformed
    (f : String → List String → Option (List String))
    (records : List String) :
    reduce_data f records = reduce_data f (records.filter keepRecord) := by
  unfold reduce_data
  rw [reduceGo_filter f records none [] []]

/-! ## Theorems about job submission and the job lifecycle -/

/-- C6, counterexample.  A submission with *no algorithm* but a present
`input_file` is accepted: `create_job` only validates `input_file`, so it
registers a pending job and enqueues the task instead of returning a 4xx
error. -/
theorem c6_counterexample :
    ({ input_file := some "data.txt" } : JobRequest).algorithm = none ∧
    create_job [] "job_1" { input_file := some "data.txt" }
      = Except.ok
          ([("job_1", { job_id := "job_1"
                        status := Status.pending
                        progress := "Job created" })],
           { job_id := "job_1"
             status := Status.pending
             message := "Job queued" },
           ("job_1", { input_file := some "data.txt" })) := by
  refine ⟨rfl, rfl⟩

/-- C6, amended: `create_job` validates only the dataset reference — a
missing (or empty) `input_file` yields an immediate 400 with the registry
unchanged and no background task enqueued; any other request (a missing
algorithm included) registers a `pending` job record under the allocated
id, enqueues the pipeline task, and returns at once with that id. -/
theorem c6_create_job_validation (jobs : List (String × JobRecord))
    (id : String) (req : JobRequest) :
    (optFalsy req.input_file = true →
      create_job jobs id req = Except.error 400) ∧
    (optFalsy req.input_file = false →
      create_job jobs id req
        = Except.ok
            ((id, { job_id := id
                    status := Status.pending
                    progress := "Job created" }) :: jobs,
             { job_id := id
               status := Status.pending
               message := "Job queued" },
             (id, req))) := by
  constructor <;> intro h <;> unfold create_job <;> simp [h]

/-- C6, witness: an empty request is rejected with 400; a request with an
input file (and nothing else) is registered pending. -/
theorem c6_witness :
    create_job [] "j1" ({ } : JobRequest) = Except.error 400 ∧
    create_job [] "j2" ({ input_file := some "in.txt" } : JobRequest)
      = Except.ok
          ([("j2", { job_id := "j2"
                     status := Status.pending
                     progress := "Job created" })],
           { job_id := "j2"
             status := Status.pending
             message := "Job queued" },
           ("j2", { input_file := some "in.txt" })) :=
  ⟨(c6_create_job_validation [] "j1" _).1 (by decide),
   (c6_create_job_validation [] "j2" _).2 (by decide)⟩

/-- C7: the status history of a job — `pending` at creation, then the
writes of its single background run — is always exactly
`pending, running, completed` or `pending, running, failed`.  In
particular every trace is a path in the allowed transition graph, only
these four states occur, and a terminal state occurs only in last
position, so `completed` and `failed` are absorbing. -/
theorem c7_status_lifecycle (req : JobRequest) (env : PipelineEnv)
    (rec : JobRecord) :
    statusTrace req env rec
        = [Status.pending, Status.running, Status.completed] ∨
    statusTrace req env rec
        = [Status.pending, Status.running, Status.failed] := by
  unfold statusTrace runJob
  cases hpre : preAggregate req env with
  | ok rc =>
    obtain ⟨R, counts⟩ := rc
    left
    rfl
  | error e =>
    right
    rfl

/-- A request with every field populated, used by concrete pipeline runs. -/
def reqStd : JobRequest :=
  { algorithm := some "wordcount"
    input_file := some "f.txt"
    num_reducers := some 1
    mapper_urls := some ["m1"]
    reducer_urls := some ["r1"]
    partitioner_url := some "p1" }

/-- A freshly created job record. -/
def recStd : JobRecord :=
  { job_id := "job_1", status := Status.pending, progress := "Job created" }

/-- An environment whose pipeline succeeds but whose final result is
empty: the mapper legitimately emits nothing, so the single partition and
the reduced output are empty, and the plugin fails to load for the
aggregate step. -/
def envEmptyResult : PipelineEnv :=
  { file_exists := true
    is_file := true
    raw_lines := ["x"]
    mapper_responses := [Except.ok []]
    partitioner_response := Except.ok ([[]], [0])
    reducer_responses := [Except.ok []]
    loaded_plugin := Except.error "load failed" }

/-- C8, counterexample.  A job can complete with an *empty*
`resultPreview`: when the final result is empty, `final_results[:10]` is
`[]`, yet the job is marked `completed`. -/
theorem c8_counterexample :
    (runJob reqStd envEmptyResult recStd).1.status = Status.completed ∧
    (runJob reqStd envEmptyResult recStd).1.result_preview = some [] := by
  refine ⟨rfl, rfl⟩

/-- C8, amended: every job that reaches `completed` carries a
`resultPreview` equal to the first 10 lines of the final result (non-empty
whenever the final result is non-empty, but empty when the result is
empty), the per-partition count histogram, and the reference to the output
artifact whose content is the final result lines one per line. -/
theorem c8_completed_record (req : JobRequest) (env : PipelineEnv)
    (rec : JobRecord)
    (h : (runJob req env rec).1.status = Status.completed) :
    ∃ R counts, preAggregate req env = Except.ok (R, counts) ∧
      (runJob req env rec).1.result_preview
        = some ((aggregateStep env.loaded_plugin R).take 10) ∧
      (runJob req env rec).1.partition_counts = some counts ∧
      (runJob req env rec).1.output_file
        = some ("output_" ++ rec.job_id ++ ".txt") ∧
      (runJob req env rec).2.2
        = some (outputText (aggregateStep env.loaded_plugin R)) ∧
      (aggregateStep env.loaded_plugin R ≠ [] →
        (runJob req env rec).1.result_preview ≠ some []) := by
  cases hpre : preAggregate req env with
  | error e =>
    exfalso
    unfold runJob at h
    rw [hpre] at h
    simp at h
  | ok rc =>
    obtain ⟨R, counts⟩ := rc
    refine ⟨R, counts, rfl, ?_, ?_, ?_, ?_, ?_⟩
    · unfold runJob
      rw [hpre]
    · unfold runJob
      rw [hpre]
    · unfold runJob
      rw [hpre]
    · unfold runJob
      rw [hpre]
    · intro hne
      unfold runJob
      rw [hpre]
      simp only [ne_eq, Option.some.injEq]
      intro htake
      exact hne ((List.take_eq_nil_iff.1 htake).resolve_left (by omega))

/-- An environment whose pipeline succeeds with a non-empty reduced
output. -/
def envOkResult : PipelineEnv :=
  { file_exists := true
    is_file := true
    raw_lines := ["x"]
    mapper_responses := [Except.ok ["k\t1"]]
    partitioner_response := Except.ok ([["k\t1"]], [1])
    reducer_responses := [Except.ok ["k\t1"]]
    loaded_plugin := Except.error "load failed" }

/-- C8, witness: a completed run with a one-line result. -/
theorem c8_witness :
    ∃ R counts, preAggregate reqStd envOkResult = Except.ok (R, counts) ∧
      (runJob reqStd envOkResult recStd).1.result_preview
        = some ((aggregateStep envOkResult.loaded_plugin R).take 10) ∧
      (runJob reqStd envOkResult recStd).1.partition_counts = some counts ∧
      (runJob reqStd envOkResult recStd).1.output_file
        = some ("output_" ++ recStd.job_id ++ ".txt") ∧
      (runJob reqStd envOkResult recStd).2.2
        = some (outputText (aggregateStep envOkResult.loaded_plugin R)) ∧
      (aggregateStep envOkResult.loaded_plugin R ≠ [] →
        (runJob reqStd envOkResult recStd).1.result_preview ≠ some []) :=
  c8_completed_record reqStd envOkResult recStd (by decide)

/-- C9: once the pipeline reaches the aggregate phase with reduced output
`R`, the job completes no matter what the aggregate step does, and the
final result is `aggregate(R)` when the plugin loads, defines
`aggregate_function` and it succeeds; it is exactly `R` when the aggregate
raises, when the plugin defines no aggregate, and when the plugin fails to
load. -/
theorem c9_aggregate_best_effort (req : JobRequest) (env : PipelineEnv)
    (rec : JobRecord) (R : List String) (counts : List Nat)
    (h : preAggregate req env = Except.ok (R, counts)) :
    (runJob req env rec).1.status = Status.completed ∧
    (runJob req env rec).2.2
      = some (outputText (aggregateStep env.loaded_plugin R)) ∧
    (∀ p g out, env.loaded_plugin = Except.ok p →
      p.aggregate_function = some g → g R = Except.ok out →
      aggregateStep env.loaded_plugin R = out) ∧
    (∀ p g e, env.loaded_plugin = Except.ok p →
      p.aggregate_function = some g → g R = Except.error e →
      aggregateStep env.loaded_plugin R = R) ∧
    (∀ p, env.loaded_plugin = Except.ok p →
      p.aggregate_function = none →
      aggregateStep env.loaded_plugin R = R) ∧
    (∀ e, env.loaded_plugin = Except.error e →
      aggregateStep env.loaded_plugin R = R) := by
  refine ⟨?_, ?_, ?_, ?_, ?_, ?_⟩
  · unfold runJob
    rw [h]
  · unfold runJob
    rw [h]
  · intro p g out hp hg hout
    simp [aggregateStep, hp, hg, hout]
  · intro p g e hp hg he
    simp [aggregateStep, hp, hg, he]
  · intro p hp hg
    simp [aggregateStep, hp, hg]
  · intro e hp
    simp [aggregateStep, hp]

/-- A plugin whose aggregate always raises. -/
def pluginBoom : Plugin :=
  { aggregate_function := some (fun _ => Except.error "boom") }

/-- `envOkResult` with a loaded plugin whose aggregate raises. -/
def envAggBoom : PipelineEnv :=
  { envOkResult with loaded_plugin := Except.ok pluginBoom }

/-- C9, witness: with an aggregate that raises, the job still completes
and the artifact holds the unaggregated reduced output. -/
theorem c9_witness :
    (runJob reqStd envAggBoom recStd).1.status = Status.completed ∧
    (runJob reqStd envAggBoom recStd).2.2
      = some (outputText ["k\t1"]) := by
  have h := c9_aggregate_best_effort reqStd envAggBoom recStd ["k\t1"] [1]
    (by rfl)
  have hagg : aggregateStep envAggBoom.loaded_plugin ["k\t1"] = ["k\t1"] :=
    h.2.2.2.1 pluginBoom (fun _ => Except.error "boom") "boom" rfl rfl rfl
  refine ⟨h.1, ?_⟩
  have h2 := h.2.1
  rw [hagg] at h2
  exact h2

end MapReduceTP
